import Mathlib

/-!
# Verification of the sec-buddy rule-based vulnerability scan engine

This file gives a shallow embedding of the detection engine of the sec-buddy
language server (files `cserver/src/server.ts` for the C rule catalog and the
compiled python server for the python rule catalog) and proves properties of
the scan algorithm.

The engine matches JavaScript regular expressions against the document text in
a `while ((m = pattern.exec(text)) && problems < settings.maxNumberOfProblems
&& active)` loop, one loop per rule, sharing a single `problems` counter.  We
embed:

* a backtracking regular-expression matcher (`reMatch`) implementing the
  JavaScript semantics of the constructs appearing in the rule patterns:
  literal characters, case-insensitive literals (the `i` flag), character
  classes `[a-b]`, `.` (any character except a line terminator), the word
  boundary assertion `\b`, concatenation, greedy star `x*` and lazy plus
  `.+?`, with leftmost-match and priority order exactly as in ECMAScript
  (greedy: prefer one more iteration; lazy: prefer stopping);
* `execFrom`/`allMatches`: the `RegExp.exec` bump-along loop over a global
  regex, where each search resumes at the previous match's end (`lastIndex`);
* the scan loop (`runRule`/`scanLoop`) shared by both rule catalogs.
-/

/-! ## Regular expressions: syntax -/

/-- Abstract syntax of the regular expressions used by the rule catalogs. -/
inductive RE where
  | eps
  | chr (c : Char)
  | chrCI (c : Char)
  | cls (lo hi : Char)
  | dot
  | wb
  | cat (a b : RE)
  | starG (a : RE)
  | plusL (a : RE)
deriving Repr

/-- JavaScript `\w`: ASCII letters, digits and underscore. -/
def isWordChar (c : Char) : Bool := c.isAlphanum || c = '_'

/-- Whether the character at index `i` (if any) is a word character. -/
def wordAt (s : List Char) (i : Nat) : Bool :=
  match s[i]? with
  | some c => isWordChar c
  | none => false

/-- JavaScript `\b`: a word boundary at position `i`, i.e. exactly one of the
adjacent positions holds a word character (positions outside the string count
as non-word). -/
def atBoundary (s : List Char) (i : Nat) : Bool :=
  (if i = 0 then false else wordAt s (i - 1)) != wordAt s i

/-- JavaScript `.` does not match line terminators. -/
def isLineTerm (c : Char) : Bool :=
  c = '\n' || c = '\r' || c = '\u2028' || c = '\u2029'

/-! ## Regular expressions: backtracking matcher -/

/-- Backtracking matcher in continuation-passing style, implementing the
ECMAScript priority order: `reMatch fuel re s i k` attempts to match `re` at
position `i` of `s` and calls the continuation `k` with the position after the
match, returning the first success in backtracking priority order (greedy star
prefers one more iteration, lazy plus prefers stopping, a star aborts a loop
iteration whose body matched the empty string).  `fuel` bounds the depth of
the search and is chosen large enough (`execFuel`) that it is never exhausted
on the catalog's patterns. -/
def reMatch : Nat → RE → List Char → Nat → (Nat → Option Nat) → Option Nat
  | 0, _, _, _, _ => none
  | Nat.succ fuel, re, s, i, k =>
    match re with
    | RE.eps => k i
    | RE.chr c =>
      match s[i]? with
      | some d => if d = c then k (i + 1) else none
      | none => none
    | RE.chrCI c =>
      match s[i]? with
      | some d => if d.toLower = c.toLower then k (i + 1) else none
      | none => none
    | RE.cls lo hi =>
      match s[i]? with
      | some d => if lo ≤ d ∧ d ≤ hi then k (i + 1) else none
      | none => none
    | RE.dot =>
      match s[i]? with
      | some d => if isLineTerm d then none else k (i + 1)
      | none => none
    | RE.wb => if atBoundary s i then k i else none
    | RE.cat a b => reMatch fuel a s i (fun j => reMatch fuel b s j k)
    | RE.starG a =>
      match reMatch fuel a s i
          (fun j => if j = i then none else reMatch fuel (RE.starG a) s j k) with
      | some e => some e
      | none => k i
    | RE.plusL a =>
      reMatch fuel a s i (fun j =>
        match k j with
        | some e => some e
        | none => if j = i then none else reMatch fuel (RE.plusL a) s j k)

/-- Structural size of a pattern, used to compute a sufficient fuel. -/
def reSize : RE → Nat
  | RE.eps => 1
  | RE.chr _ => 1
  | RE.chrCI _ => 1
  | RE.cls _ _ => 1
  | RE.dot => 1
  | RE.wb => 1
  | RE.cat a b => reSize a + reSize b + 1
  | RE.starG a => reSize a + 1
  | RE.plusL a => reSize a + 1

/-- Fuel that is ample for matching `re` against `s`: the search depth of the
catalog's patterns (no nested quantifiers, every quantifier body consumes a
character) is bounded by a small multiple of pattern size and text length. -/
def execFuel (re : RE) (s : List Char) : Nat :=
  (reSize re + 2) * (s.length + 2) + 2

/-- `RegExp.exec` from a given `lastIndex`: attempt a match at `start`,
`start + 1`, ... (the bump-along loop) and return the first match as the pair
(index, end).  Returns `none` when `lastIndex` exceeds the text length, as
`exec` does. -/
def execFromAux (re : RE) (s : List Char) : Nat → Nat → Option (Nat × Nat)
  | 0, _ => none
  | Nat.succ fuel, start =>
    if start ≤ s.length then
      match reMatch (execFuel re s) re s start some with
      | some e => some (start, e)
      | none => execFromAux re s fuel (start + 1)
    else none

/-- `RegExp.exec` proper: the fuel `s.length + 1 - start` lets the bump-along
loop visit every position from `start` to `s.length`; past the end the loop
returns `none`, exactly as `exec` resets on `lastIndex > length`. -/
def execFrom (re : RE) (s : List Char) (start : Nat) : Option (Nat × Nat) :=
  execFromAux re s (s.length + 1 - start) start

/-- Iterated `exec` on a global regex: after a match `(p, e)` the next search
resumes at `lastIndex = e`.  The fuel `s.length + 1` is ample, since every
pattern iterated this way consumes at least one character per match. -/
def matchesFrom (re : RE) (s : List Char) : Nat → Nat → List (Nat × Nat)
  | 0, _ => []
  | Nat.succ fuel, pos =>
    match execFrom re s pos with
    | some pe => pe :: matchesFrom re s fuel pe.2
    | none => []

/-- All matches of a global regex in document order, as produced by the
`while ((m = pattern.exec(text)))` idiom. -/
def allMatches (re : RE) (s : List Char) : List (Nat × Nat) :=
  matchesFrom re s (s.length + 1) 0

/-- `String.prototype.search(re) != -1`: does the regex match anywhere? -/
def jsSearch (re : RE) (s : List Char) : Bool :=
  (execFrom re s 0).isSome

/-- A pattern that consumes at least one character whenever it matches. -/
def consumes : RE → Bool
  | RE.eps => false
  | RE.chr _ => true
  | RE.chrCI _ => true
  | RE.cls _ _ => true
  | RE.dot => true
  | RE.wb => false
  | RE.cat a b => consumes a || consumes b
  | RE.starG _ => false
  | RE.plusL a => consumes a

/-- Concatenation of a list of patterns. -/
def reSeq (rs : List RE) : RE := rs.foldr RE.cat RE.eps

/-- Literal string pattern. -/
def reStr (s : String) : RE := reSeq (s.toList.map RE.chr)

/-- Literal string pattern under the case-insensitive flag `i`. -/
def reStrCI (s : String) : RE := reSeq (s.toList.map RE.chrCI)

/-! ## Diagnostics and the scan loop -/

/-- A published diagnostic: the half-open span `[rangeStart, rangeEnd)` of
character offsets (`m.index` to `m.index + m[0].length`), the firing rule's
message, and the constant severity and source tag. -/
structure Diagnostic where
  rangeStart : Nat
  rangeEnd : Nat
  message : String
  severity : String
  sourceTag : String
deriving DecidableEq, Repr

/-- The diagnostic constructed for a match, mirroring the object literal in
`validateTextDocument` (severity `Warning`, source `sec-buddy`). -/
def mkDiag (msg : String) (pe : Nat × Nat) : Diagnostic :=
  { rangeStart := pe.1, rangeEnd := pe.2, message := msg,
    severity := "warning", sourceTag := "sec-buddy" }

/-- One rule as seen by the scan loop: its resolved activation flag, its
message (as a function of the match, for match-parameterized messages), and
its match stream. -/
abbrev ScanRule := Bool × ((Nat × Nat) → String) × List (Nat × Nat)

/-- One rule's `while` loop: `while (m && problems < cap && active)` emit a
diagnostic and increment the shared `problems` counter.  Returns the emitted
diagnostics and the updated counter. -/
def runRule (cap : Nat) (active : Bool) (msgF : (Nat × Nat) → String) :
    List (Nat × Nat) → Nat → List Diagnostic × Nat
  | [], problems => ([], problems)
  | pe :: ms, problems =>
    if problems < cap ∧ active = true then
      let rest := runRule cap active msgF ms (problems + 1)
      (mkDiag (msgF pe) pe :: rest.1, rest.2)
    else ([], problems)

/-- The outer loop over the rule catalog, threading the shared `problems`
counter and accumulating diagnostics in catalog order. -/
def scanLoopAux (cap : Nat) : List ScanRule → List Diagnostic × Nat → List Diagnostic × Nat
  | [], acc => acc
  | r :: rs, acc =>
    let out := runRule cap r.1 r.2.1 r.2.2 acc.2
    scanLoopAux cap rs (acc.1 ++ out.1, out.2)

/-- The scan: run every rule in catalog order against the shared budget. -/
def scanLoop (cap : Nat) (rules : List ScanRule) : List Diagnostic :=
  (scanLoopAux cap rules ([], 0)).1

/-- A rule's uncapped contribution: all its matches when active, nothing when
inactive. -/
def ruleContrib : ScanRule → List Diagnostic
  | (active, msgF, ms) => if active then ms.map (fun pe => mkDiag (msgF pe) pe) else []

/-! ## The C rule catalog (`cserver/src/server.ts`) -/

def strcpyMsg : String :=
  "strcpy() is vulnerable to buffer overflow attacks. Consider using strncpy()."
def getsMsg : String :=
  "gets() is vulnerable to buffer overflow attacks. Consider using fgets()."
def stpcpyMsg : String :=
  "stpcpy() is vulnerable to buffer overflow attacks. Consider using stpncpy()."
def strcatMsg : String :=
  "strcat() is vulnerable to buffer overflow attacks. Consider using strncat()."
def strcmpMsg : String :=
  "strcmp() is vulnerable to buffer overflow attacks. Consider using strncmp()."
def sprintfMsg : String :=
  "sprintf() is vulnerable to buffer overflow attacks. Consider using snprintf()."
def vsprintfMsg : String :=
  "vsprintf() is vulnerable to buffer overflow attacks. Consider using snprintf()."

/-- The shared shape of the seven C rule patterns: for example the `strcpy`
rule's pattern is `/\bstrcpy\(*.+?\)\b/g`, i.e. word boundary, the literal
name, greedy `\(*`, lazy `.+?`, literal `)`, word boundary. -/
def cCallPattern (name : String) : RE :=
  RE.cat RE.wb (RE.cat (reStr name)
    (RE.cat (RE.starG (RE.chr '(')) (RE.cat (RE.plusL RE.dot) (RE.cat (RE.chr ')') RE.wb))))

/-- The `vulnerability` record of `server.ts`. -/
structure vulnerability where
  pattern : RE
  errorMsg : String
  active : Bool

/-- The `c` settings block of `serverSettings` (`interface c` in `server.ts`).
The settings object arrives from the client at run time, so we model the block
as a field map; a JavaScript read of a missing field yields `undefined`, which
the scan loop's truth test (`&& vulnerabilities[i].active`) treats exactly as
`false` — hence the `getD false`. -/
def cGet (cFields : List (String × Bool)) (name : String) : Bool :=
  (cFields.lookup name).getD false

/-- `serverSettings` of `server.ts`: the problem cap and the `c` toggle
block. -/
structure serverSettings where
  maxNumberOfProblems : Nat
  c : List (String × Bool)

/-- The rule catalog built per scan by `validateTextDocument`, in source
(push) order, each rule with its resolved activation flag. -/
def vulnerabilities (settings : serverSettings) : List vulnerability :=
  [ { pattern := cCallPattern "strcpy", errorMsg := strcpyMsg,
      active := cGet settings.c "strcpy" },
    { pattern := cCallPattern "gets", errorMsg := getsMsg,
      active := cGet settings.c "gets" },
    { pattern := cCallPattern "stpcpy", errorMsg := stpcpyMsg,
      active := cGet settings.c "stpcpy" },
    { pattern := cCallPattern "strcat", errorMsg := strcatMsg,
      active := cGet settings.c "strcat" },
    { pattern := cCallPattern "strcmp", errorMsg := strcmpMsg,
      active := cGet settings.c "strcmp" },
    { pattern := cCallPattern "sprintf", errorMsg := sprintfMsg,
      active := cGet settings.c "sprintf" },
    { pattern := cCallPattern "vsprintf", errorMsg := vsprintfMsg,
      active := cGet settings.c "vsprintf" } ]

/-- The seven rules as scan-loop inputs (constant messages, `exec` streams). -/
def cScanRules (settings : serverSettings) (text : List Char) : List ScanRule :=
  (vulnerabilities settings).map (fun v => (v.active, fun _ => v.errorMsg, allMatches v.pattern text))

/-- `validateTextDocument` of `cserver/src/server.ts`: the nested
`for`/`while` loops over the rule catalog with the shared `problems` counter
bounded by `settings.maxNumberOfProblems`. -/
def validateTextDocument (settings : serverSettings) (text : List Char) : List Diagnostic :=
  scanLoop settings.maxNumberOfProblems (cScanRules settings text)

/-- Per-rule uncapped diagnostic blocks, in catalog order. -/
def cBlocks (settings : serverSettings) (text : List Char) : List (List Diagnostic) :=
  (cScanRules settings text).map ruleContrib

/-- The uncapped scan result: the concatenation of the per-rule blocks. -/
def fullScan (settings : serverSettings) (text : List Char) : List Diagnostic :=
  (cBlocks settings text).flatten

/-- The default settings of `server.ts`: cap 1000, every toggle true. -/
def defaultSettings : serverSettings :=
  { maxNumberOfProblems := 1000,
    c := [("strcpy", true), ("gets", true), ("stpcpy", true), ("strcat", true),
          ("strcmp", true), ("sprintf", true), ("vsprintf", true)] }

/-! ## The python rule catalog (compiled python server in `server.ts`) -/

/-- The `python` settings block (error-message toggle, input-validation
toggle, declared python version string). -/
structure pythonSettings where
  errorMessages : Bool
  inputValidation : Bool
  version : List Char

/-- The python server's settings: problem cap and `python` block. -/
structure pyServerSettings where
  maxNumberOfProblems : Nat
  python : pythonSettings

/-- An ASCII apostrophe. -/
def apos : Char := Char.ofNat 39

/-- `/error/gi` — case-insensitive literal. -/
def errorpattern : RE := reStrCI "error"

def errorMsgText : String :=
  "Error messages can lead to vulnerabilities if this code is used as part of a client. To turn these messages off, go to the extension\x27s settings and disable \"Error Message Checks\""

/-- `/input\(*.+?\)/g`. -/
def inputpattern : RE :=
  RE.cat (reStr "input")
    (RE.cat (RE.starG (RE.chr '(')) (RE.cat (RE.plusL RE.dot) (RE.chr ')')))

def inputMsgText : String :=
  "Ensure that there is input validation for this! You can turn these reminders off in the extension\x27s settings under \"Input Validation\""

/-- `/makefile/g`. -/
def makefilepattern : RE := reStr "makefile"

/-- `/mktemp\(*.+?\)/g`. -/
def mktemppattern : RE :=
  RE.cat (reStr "mktemp")
    (RE.cat (RE.starG (RE.chr '(')) (RE.cat (RE.plusL RE.dot) (RE.chr ')')))

/-- The tail of the mktemp rule's match-parameterized message
`` `${m[0]} can overwrite ...` ``. -/
def mktempMsgSuffix : String :=
  " can overwrite existing temp files, consider using mkstemp() (CVE-2023-2800)"

/-- A CVE catalog entry: version-range regexes, detection pattern, message.
`isGlobal` records whether the detection pattern carries the `g` flag (all do
except `cve2021_3737`); a non-global regex never advances `lastIndex`, which
changes the `while (pattern.exec(text))` loop's behavior. -/
structure pyVulnerability where
  versions : List RE
  pattern : RE
  errorMsg : String
  isGlobal : Bool

/-- versions `[/3\.10\./g, /3\.[7-9]\./g]`, pattern `/email\.utils/g`. -/
def cve2023_27043 : pyVulnerability :=
  { versions := [reStr "3.10.", reSeq [RE.chr '3', RE.chr '.', RE.cls '7' '9', RE.chr '.']],
    pattern := reStr "email.utils",
    errorMsg := "This package is vulnerable in your current version of python. Consider updating or avoid the use of email.utils.parsaddr() and email.utils.getaddresses() (CVE-2023-27043)",
    isGlobal := true }

/-- versions `[/3\.10\./g, /3\.9\./g, /3\.8\./g, /3\.7\./g]`, pattern
`/urllib\.parse/g`. -/
def cve2023_24329 : pyVulnerability :=
  { versions := [reStr "3.10.", reStr "3.9.", reStr "3.8.", reStr "3.7."],
    pattern := reStr "urllib.parse",
    errorMsg := "This package is vulnerable in your current version of python. Consider updating or avoid the use of urllib.parse.urlparse() (CVE-2023-24329)",
    isGlobal := true }

/-- versions `[/3\.[0-6]\./, /2\.[0-7]\./, /1\.[0-6]\./, /\b3\.[7-9]\.[0-9]\b/,
/\b3\.[7-9]\.1[0-5]\b/, /\b3\.10\.[0-8]\b/]`, pattern `/hashlib/g`. -/
def cve2022_37454 : pyVulnerability :=
  { versions :=
      [reSeq [RE.chr '3', RE.chr '.', RE.cls '0' '6', RE.chr '.'],
       reSeq [RE.chr '2', RE.chr '.', RE.cls '0' '7', RE.chr '.'],
       reSeq [RE.chr '1', RE.chr '.', RE.cls '0' '6', RE.chr '.'],
       reSeq [RE.wb, RE.chr '3', RE.chr '.', RE.cls '7' '9', RE.chr '.', RE.cls '0' '9', RE.wb],
       reSeq [RE.wb, RE.chr '3', RE.chr '.', RE.cls '7' '9', RE.chr '.', RE.chr '1', RE.cls '0' '5', RE.wb],
       reSeq [RE.wb, RE.chr '3', RE.chr '.', RE.chr '1', RE.chr '0', RE.chr '.', RE.cls '0' '8', RE.wb]],
    pattern := reStr "hashlib",
    errorMsg := "This package is vulnerable in your current version of python. Consider updating or avoid the use of hashlib.sha3_224 (CVE-2022-37454)",
    isGlobal := true }

/-- versions as `cve2022_37454` plus `/\b3\.11\.0\b/`, pattern
`/decode\('idna'\)/g`. -/
def cve2022_45061 : pyVulnerability :=
  { versions :=
      [reSeq [RE.chr '3', RE.chr '.', RE.cls '0' '6', RE.chr '.'],
       reSeq [RE.chr '2', RE.chr '.', RE.cls '0' '7', RE.chr '.'],
       reSeq [RE.chr '1', RE.chr '.', RE.cls '0' '6', RE.chr '.'],
       reSeq [RE.wb, RE.chr '3', RE.chr '.', RE.cls '7' '9', RE.chr '.', RE.cls '0' '9', RE.wb],
       reSeq [RE.wb, RE.chr '3', RE.chr '.', RE.cls '7' '9', RE.chr '.', RE.chr '1', RE.cls '0' '5', RE.wb],
       reSeq [RE.wb, RE.chr '3', RE.chr '.', RE.chr '1', RE.chr '0', RE.chr '.', RE.cls '0' '8', RE.wb],
       reSeq [RE.wb, RE.chr '3', RE.chr '.', RE.chr '1', RE.chr '1', RE.chr '.', RE.chr '0', RE.wb]],
    pattern := reStr ("decode(" ++ apos.toString ++ "idna" ++ apos.toString ++ ")"),
    errorMsg := "This method of decoding uses a quadratic formula and can lead to slow execution time. Consider updating your version (CVE-2022-45061)",
    isGlobal := true }

/-- versions `[/\b3\.9\.[0-9]\b/, /\b3\.9\.1[0-5]\b/, /\b3\.10.[0-8]\b/]`
(note the unescaped dot in the third), pattern `/multiprocessing\.util/g`. -/
def cve2022_42919 : pyVulnerability :=
  { versions :=
      [reSeq [RE.wb, RE.chr '3', RE.chr '.', RE.chr '9', RE.chr '.', RE.cls '0' '9', RE.wb],
       reSeq [RE.wb, RE.chr '3', RE.chr '.', RE.chr '9', RE.chr '.', RE.chr '1', RE.cls '0' '5', RE.wb],
       reSeq [RE.wb, RE.chr '3', RE.chr '.', RE.chr '1', RE.chr '0', RE.dot, RE.cls '0' '8', RE.wb]],
    pattern := reStr "multiprocessing.util",
    errorMsg := "This package is vulnerable in your current version of python. Forkserver may allow for privilege escalation attacks when executed on Linux systems (CVE-2022-42919)",
    isGlobal := true }

/-- versions `[/3\.[0-6]\./, /2\.[0-7]\./, /1\.[0-6]\./, /\b3\.[7-9]\.[0-9]\b/,
/\b3\.[7-9]\.1[0-3]\b/, /\b3\.10\.[0-6]\b/]`, pattern `/int\("*.+?"\)/g`. -/
def cve2020_10735 : pyVulnerability :=
  { versions :=
      [reSeq [RE.chr '3', RE.chr '.', RE.cls '0' '6', RE.chr '.'],
       reSeq [RE.chr '2', RE.chr '.', RE.cls '0' '7', RE.chr '.'],
       reSeq [RE.chr '1', RE.chr '.', RE.cls '0' '6', RE.chr '.'],
       reSeq [RE.wb, RE.chr '3', RE.chr '.', RE.cls '7' '9', RE.chr '.', RE.cls '0' '9', RE.wb],
       reSeq [RE.wb, RE.chr '3', RE.chr '.', RE.cls '7' '9', RE.chr '.', RE.chr '1', RE.cls '0' '3', RE.wb],
       reSeq [RE.wb, RE.chr '3', RE.chr '.', RE.chr '1', RE.chr '0', RE.chr '.', RE.cls '0' '6', RE.wb]],
    pattern :=
      RE.cat (reStr "int(")
        (RE.cat (RE.starG (RE.chr '"')) (RE.cat (RE.plusL RE.dot) (RE.cat (RE.chr '"') (RE.chr ')')))),
    errorMsg := "This method has a quadratic time formula in your version of python. This can be abused for a DOS attack. Consider updating your version or adding a limit to the amount of characters used by this function (CVE-2020-10735)",
    isGlobal := true }

/-- versions `[/\b3\.[7-9]\.[0-9]\b/, /\b3\.[7-9]\.1[0-3]\b/, /\b3\.[7-8]\.14\b/,
/\b3\.10\.[0-4]\b/]`, pattern `/zlib/g`. -/
def cve2018_25032 : pyVulnerability :=
  { versions :=
      [reSeq [RE.wb, RE.chr '3', RE.chr '.', RE.cls '7' '9', RE.chr '.', RE.cls '0' '9', RE.wb],
       reSeq [RE.wb, RE.chr '3', RE.chr '.', RE.cls '7' '9', RE.chr '.', RE.chr '1', RE.cls '0' '3', RE.wb],
       reSeq [RE.wb, RE.chr '3', RE.chr '.', RE.cls '7' '8', RE.chr '.', RE.chr '1', RE.chr '4', RE.wb],
       reSeq [RE.wb, RE.chr '3', RE.chr '.', RE.chr '1', RE.chr '0', RE.chr '.', RE.cls '0' '4', RE.wb]],
    pattern := reStr "zlib",
    errorMsg := "This package is vulnerable in your current version of python. Zlib contains an out-of-bounds access flaw, which can allow memory corruption (CVE-2018-25032)",
    isGlobal := true }

/-- versions `[/\b3\.[7-9]\.[0-9]\b/, /\b3\.[7-9]\.1[0-1]\b/, /\b3\.[7-8]\.[2-3]\b/,
/\b3\.10\.[0-3]\b/]`, pattern `/bz2/g`. -/
def cve2016_3189 : pyVulnerability :=
  { versions :=
      [reSeq [RE.wb, RE.chr '3', RE.chr '.', RE.cls '7' '9', RE.chr '.', RE.cls '0' '9', RE.wb],
       reSeq [RE.wb, RE.chr '3', RE.chr '.', RE.cls '7' '9', RE.chr '.', RE.chr '1', RE.cls '0' '1', RE.wb],
       reSeq [RE.wb, RE.chr '3', RE.chr '.', RE.cls '7' '8', RE.chr '.', RE.cls '2' '3', RE.wb],
       reSeq [RE.wb, RE.chr '3', RE.chr '.', RE.chr '1', RE.chr '0', RE.chr '.', RE.cls '0' '3', RE.wb]],
    pattern := reStr "bz2",
    errorMsg := "This package is vulnerable in your current version of python. This version of bzip2 allows for remote DoS attacks (CVE-2016-3189)",
    isGlobal := true }

/-- same version list as `cve2016_3189`, pattern `/bz2/g`. -/
def cve2019_12900 : pyVulnerability :=
  { versions :=
      [reSeq [RE.wb, RE.chr '3', RE.chr '.', RE.cls '7' '9', RE.chr '.', RE.cls '0' '9', RE.wb],
       reSeq [RE.wb, RE.chr '3', RE.chr '.', RE.cls '7' '9', RE.chr '.', RE.chr '1', RE.cls '0' '1', RE.wb],
       reSeq [RE.wb, RE.chr '3', RE.chr '.', RE.cls '7' '8', RE.chr '.', RE.cls '2' '3', RE.wb],
       reSeq [RE.wb, RE.chr '3', RE.chr '.', RE.chr '1', RE.chr '0', RE.chr '.', RE.cls '0' '3', RE.wb]],
    pattern := reStr "bz2",
    errorMsg := "This package is vulnerable in your current version of python. TThis version of bzip allows for out-of-bounds writes when decompressing (CVE-2019-12900)",
    isGlobal := true }

/-- versions `[/\b3\.[6-8].[0-9]\b/, /\b3\.[6-8]\.1[0-2]\b/, /\b3\.6\.1[3-5]\b/,
/\b3\.9\.[0-7]\b/]` (note the unescaped dot in the first), pattern `/xml/g`. -/
def cve2013_0340 : pyVulnerability :=
  { versions :=
      [reSeq [RE.wb, RE.chr '3', RE.chr '.', RE.cls '6' '8', RE.dot, RE.cls '0' '9', RE.wb],
       reSeq [RE.wb, RE.chr '3', RE.chr '.', RE.cls '6' '8', RE.chr '.', RE.chr '1', RE.cls '0' '2', RE.wb],
       reSeq [RE.wb, RE.chr '3', RE.chr '.', RE.chr '6', RE.chr '.', RE.chr '1', RE.cls '3' '5', RE.wb],
       reSeq [RE.wb, RE.chr '3', RE.chr '.', RE.chr '9', RE.chr '.', RE.cls '0' '7', RE.wb]],
    pattern := reStr "xml",
    errorMsg := "This package is vulnerable in your current version of python. This package is vulnerable to the XML billion laughs attack when using parser.expat (CVE-2013-0340)",
    isGlobal := true }

/-- versions `[/\b3\.[6-8]\.[0-9]\b/, /\b3\.6\.1[0-4]\b/, /\b3\.[7-8]\.1[0-1]\b/,
/\b3\.9\.[0-6]\b/]`, pattern `/\burllib\.request\b/` — note: no `g` flag. -/
def cve2021_3737 : pyVulnerability :=
  { versions :=
      [reSeq [RE.wb, RE.chr '3', RE.chr '.', RE.cls '6' '8', RE.chr '.', RE.cls '0' '9', RE.wb],
       reSeq [RE.wb, RE.chr '3', RE.chr '.', RE.chr '6', RE.chr '.', RE.chr '1', RE.cls '0' '4', RE.wb],
       reSeq [RE.wb, RE.chr '3', RE.chr '.', RE.cls '7' '8', RE.chr '.', RE.chr '1', RE.cls '0' '1', RE.wb],
       reSeq [RE.wb, RE.chr '3', RE.chr '.', RE.chr '9', RE.chr '.', RE.cls '0' '6', RE.wb]],
    pattern := RE.cat RE.wb (RE.cat (reStr "urllib.request") RE.wb),
    errorMsg := "This package is vulnerable in your current version of python. HTTP requests can enter an infinite loop (CVE-2021-3737)",
    isGlobal := false }

/-- The CVE array, in push order. -/
def pyVulnerabilities : List pyVulnerability :=
  [cve2023_27043, cve2023_24329, cve2022_37454, cve2022_45061, cve2022_42919,
   cve2020_10735, cve2018_25032, cve2016_3189, cve2019_12900, cve2013_0340,
   cve2021_3737]

/-- The version-gate loop of the scan: `let vulnerable = false; for (j) { if
(currentVersion.search(versions[j]) != -1) vulnerable = true; }`. -/
def computeVulnerable (versions : List RE) (currentVersion : List Char) : Bool :=
  versions.foldl (fun vulnerable re =>
    if jsSearch re currentVersion then true else vulnerable) false

/-- The context signal: `while ((m = makefilepattern.exec(text))) {
makefileExists = true; }` — a full-text pass run before the mktemp rule's own
match loop, true exactly when the document contains `makefile`. -/
def makefileExists (text : List Char) : Bool :=
  (execFrom makefilepattern text 0).isSome

/-- The matched substring `m[0]`, interpolated into the mktemp message. -/
def textSlice (text : List Char) (pe : Nat × Nat) : String :=
  String.mk ((text.drop pe.1).take (pe.2 - pe.1))

/-- The match stream a rule's `while (pattern.exec(text))` loop walks.  A
global regex yields each match once, resuming at the previous end.  A
non-global regex (`cve2021_3737`) never advances `lastIndex`, so `exec`
returns the first match forever and the loop re-emits it until the shared
`problems` counter reaches the cap; a stream of `cap` copies saturates any
remaining budget exactly the same way. -/
def pyStream (cap : Nat) (isGlobal : Bool) (re : RE) (text : List Char) : List (Nat × Nat) :=
  if isGlobal then allMatches re text
  else
    match execFrom re text 0 with
    | some pe => List.replicate cap pe
    | none => []

/-- The error-message rule (`settings.python.errorMessages == true`). -/
def errorScanRule (settings : pyServerSettings) (text : List Char) : ScanRule :=
  (settings.python.errorMessages, fun _ => errorMsgText, allMatches errorpattern text)

/-- The input-validation rule (`settings.python.inputValidation == true`). -/
def inputScanRule (settings : pyServerSettings) (text : List Char) : ScanRule :=
  (settings.python.inputValidation, fun _ => inputMsgText, allMatches inputpattern text)

/-- The context-gated mktemp rule: active exactly when the makefile context
signal holds; message interpolates the matched text. -/
def mktempScanRule (text : List Char) : ScanRule :=
  (makefileExists text, fun pe => textSlice text pe ++ mktempMsgSuffix,
   allMatches mktemppattern text)

/-- The version-gated CVE rules as scan-loop inputs. -/
def cveScanRules (settings : pyServerSettings) (text : List Char) : List ScanRule :=
  pyVulnerabilities.map (fun v =>
    (computeVulnerable v.versions settings.python.version, fun _ => v.errorMsg,
     pyStream settings.maxNumberOfProblems v.isGlobal v.pattern text))

/-- The python server's rule list, in source order: error messages, input
validation, the context-gated mktemp rule, then the CVE loop. -/
def pyRules (settings : pyServerSettings) (text : List Char) : List ScanRule :=
  errorScanRule settings text :: inputScanRule settings text ::
    mktempScanRule text :: cveScanRules settings text

/-- `validateTextDocument` of the python server. -/
def pyValidateTextDocument (settings : pyServerSettings) (text : List Char) : List Diagnostic :=
  scanLoop settings.maxNumberOfProblems (pyRules settings text)

/-- The mktemp rule's uncapped contribution. -/
def mktempContribution (text : List Char) : List Diagnostic :=
  ruleContrib (mktempScanRule text)

/-- Per-rule uncapped blocks of the python scan, in catalog order. -/
def pyBlocks (settings : pyServerSettings) (text : List Char) : List (List Diagnostic) :=
  (pyRules settings text).map ruleContrib

/-- The uncapped python scan result. -/
def pyFullScan (settings : pyServerSettings) (text : List Char) : List Diagnostic :=
  (pyBlocks settings text).flatten

/-- The python server's default settings. -/
def pyDefaultSettings : pyServerSettings :=
  { maxNumberOfProblems := 1000,
    python := { errorMessages := true, inputValidation := true, version := "3.12.0".toList } }

/-! ## Matcher lemmas -/

theorem getElem?_some_lt {s : List Char} {i : Nat} {d : Char}
    (h : s[i]? = some d) : i < s.length := by
  by_contra hc
  rw [List.getElem?_eq_none (by omega)] at h
  exact absurd h (by simp)

/-- If the continuation stays within the text, so does the match end. -/
theorem reMatch_le : ∀ (fuel : Nat) (re : RE) (s : List Char) (i : Nat)
    (k : Nat → Option Nat) (e : Nat),
    i ≤ s.length →
    (∀ j r, j ≤ s.length → k j = some r → r ≤ s.length) →
    reMatch fuel re s i k = some e → e ≤ s.length := by
  intro fuel
  induction fuel with
  | zero => intro re s i k e _ _ h; simp [reMatch] at h
  | succ fuel ih =>
    intro re s i k e hi hk h
    cases re with
    | eps => exact hk i e hi h
    | chr c =>
      simp only [reMatch] at h
      split at h
      next d hg =>
        split at h
        · exact hk (i + 1) e (getElem?_some_lt hg) h
        · exact absurd h (by simp)
      next => exact absurd h (by simp)
    | chrCI c =>
      simp only [reMatch] at h
      split at h
      next d hg =>
        split at h
        · exact hk (i + 1) e (getElem?_some_lt hg) h
        · exact absurd h (by simp)
      next => exact absurd h (by simp)
    | cls lo hi' =>
      simp only [reMatch] at h
      split at h
      next d hg =>
        split at h
        · exact hk (i + 1) e (getElem?_some_lt hg) h
        · exact absurd h (by simp)
      next => exact absurd h (by simp)
    | dot =>
      simp only [reMatch] at h
      split at h
      next d hg =>
        split at h
        · exact absurd h (by simp)
        · exact hk (i + 1) e (getElem?_some_lt hg) h
      next => exact absurd h (by simp)
    | wb =>
      simp only [reMatch] at h
      split at h
      · exact hk i e hi h
      · exact absurd h (by simp)
    | cat a b =>
      exact ih a s i _ e hi (fun j r hj hr => ih b s j k r hj hk hr) h
    | starG a =>
      simp only [reMatch] at h
      split at h
      next e' heq =>
        have h2 : e' ≤ s.length := by
          refine ih a s i _ e' hi ?_ heq
          intro j r hj hr
          split at hr
          · exact absurd hr (by simp)
          · exact ih (RE.starG a) s j k r hj hk hr
        exact (Option.some.inj h) ▸ h2
      next => exact hk i e hi h
    | plusL a =>
      refine ih a s i _ e hi ?_ h
      intro j r hj hr
      simp only at hr
      split at hr
      next e'' hkj => exact hk j r hj (hkj.trans hr)
      next hkj =>
        split at hr
        · exact absurd hr (by simp)
        · exact ih (RE.plusL a) s j k r hj hk hr

/-- Positions only move forward, and a consuming pattern moves them strictly:
with a continuation that adds at least `c` (as 0/1), the match end is at least
`i` plus one if the pattern consumes, plus `c` via the continuation. -/
theorem reMatch_adds : ∀ (fuel : Nat) (re : RE) (s : List Char) (i : Nat)
    (k : Nat → Option Nat) (e : Nat) (c : Bool),
    (∀ j r, k j = some r → j + (if c then 1 else 0) ≤ r) →
    reMatch fuel re s i k = some e →
    i + (if consumes re || c then 1 else 0) ≤ e := by
  intro fuel
  induction fuel with
  | zero => intro re s i k e c _ h; simp [reMatch] at h
  | succ fuel ih =>
    intro re s i k e c hk h
    cases re with
    | eps =>
      have := hk i e h
      simpa [consumes] using this
    | chr ch =>
      simp only [reMatch] at h
      split at h
      next d hg =>
        split at h
        · have := hk (i + 1) e h
          simp only [consumes, Bool.true_or, if_pos]
          cases c <;> simp at this ⊢ <;> omega
        · exact absurd h (by simp)
      next => exact absurd h (by simp)
    | chrCI ch =>
      simp only [reMatch] at h
      split at h
      next d hg =>
        split at h
        · have := hk (i + 1) e h
          simp only [consumes, Bool.true_or, if_pos]
          cases c <;> simp at this ⊢ <;> omega
        · exact absurd h (by simp)
      next => exact absurd h (by simp)
    | cls lo hi' =>
      simp only [reMatch] at h
      split at h
      next d hg =>
        split at h
        · have := hk (i + 1) e h
          simp only [consumes, Bool.true_or, if_pos]
          cases c <;> simp at this ⊢ <;> omega
        · exact absurd h (by simp)
      next => exact absurd h (by simp)
    | dot =>
      simp only [reMatch] at h
      split at h
      next d hg =>
        split at h
        · exact absurd h (by simp)
        · have := hk (i + 1) e h
          simp only [consumes, Bool.true_or, if_pos]
          cases c <;> simp at this ⊢ <;> omega
      next => exact absurd h (by simp)
    | wb =>
      simp only [reMatch] at h
      split at h
      · have := hk i e h
        simpa [consumes] using this
      · exact absurd h (by simp)
    | cat a b =>
      have hb : ∀ j r, (fun j => reMatch fuel b s j k) j = some r →
          j + (if consumes b || c then 1 else 0) ≤ r := by
        intro j r hr
        exact ih b s j k r c hk hr
      have := ih a s i _ e (consumes b || c) hb h
      simpa [consumes, Bool.or_assoc] using this
    | starG a =>
      simp only [reMatch] at h
      split at h
      next e' heq =>
        have hkk : ∀ j r, (fun j => if j = i then none
            else reMatch fuel (RE.starG a) s j k) j = some r →
            j + (if c then 1 else 0) ≤ r := by
          intro j r hr
          simp only at hr
          split at hr
          · exact absurd hr (by simp)
          · have := ih (RE.starG a) s j k r c hk hr
            simpa [consumes] using this
        have hth := ih a s i _ e' c hkk heq
        have hee : e' = e := Option.some.inj h
        have hle : (if (consumes (RE.starG a) || c : Bool) then (1 : Nat) else 0) ≤
            (if (consumes a || c : Bool) then (1 : Nat) else 0) := by
          cases c <;> cases hca : consumes a <;> simp [consumes]
        omega
      next =>
        have := hk i e h
        simpa [consumes] using this
    | plusL a =>
      have hkk : ∀ j r, (fun j =>
          match k j with
          | some e => some e
          | none => if j = i then none
                    else reMatch fuel (RE.plusL a) s j k) j = some r →
          j + (if c then 1 else 0) ≤ r := by
        intro j r hr
        simp only at hr
        split at hr
        next e'' hkj => cases hr; exact hk j r hkj
        next hkj =>
          split at hr
          · exact absurd hr (by simp)
          · have hth := ih (RE.plusL a) s j k r c hk hr
            have hle : (if (c : Bool) then (1 : Nat) else 0) ≤
                (if (consumes (RE.plusL a) || c : Bool) then (1 : Nat) else 0) := by
              cases c <;> cases hca : consumes a <;> simp [consumes]
            omega
      have := ih a s i _ e c hkk h
      simpa [consumes] using this

theorem reMatch_some_le {fuel : Nat} {re : RE} {s : List Char} {i e : Nat}
    (hi : i ≤ s.length) (h : reMatch fuel re s i some = some e) : e ≤ s.length :=
  reMatch_le fuel re s i some e hi (fun j r hj hr => by cases hr; exact hj) h

theorem reMatch_some_bound {fuel : Nat} {re : RE} {s : List Char} {i e : Nat}
    (h : reMatch fuel re s i some = some e) :
    i + (if consumes re then 1 else 0) ≤ e := by
  have := reMatch_adds fuel re s i some e false (fun j r hr => by cases hr; simp) h
  simpa using this

/-! ## Exec stream lemmas -/

theorem execFromAux_spec (re : RE) (s : List Char) :
    ∀ (n start p e : Nat), execFromAux re s n start = some (p, e) →
      start ≤ p ∧ p ≤ s.length ∧ reMatch (execFuel re s) re s p some = some e := by
  intro n
  induction n with
  | zero =>
    intro start p e h
    simp [execFromAux] at h
  | succ n ih =>
    intro start p e h
    rw [execFromAux] at h
    by_cases hs : start ≤ s.length
    · rw [if_pos hs] at h
      split at h
      next e' heq =>
        rw [Option.some.injEq, Prod.mk.injEq] at h
        obtain ⟨rfl, rfl⟩ := h
        exact ⟨le_refl _, hs, heq⟩
      next heq =>
        have := ih (start + 1) p e h
        exact ⟨by omega, this.2.1, this.2.2⟩
    · rw [if_neg hs] at h
      exact absurd h (by simp)

theorem execFrom_some {re : RE} {s : List Char} {start p e : Nat}
    (h : execFrom re s start = some (p, e)) :
    start ≤ p ∧ p ≤ s.length ∧ reMatch (execFuel re s) re s p some = some e :=
  execFromAux_spec re s (s.length + 1 - start) start p e h

theorem matchesFrom_mem {re : RE} {s : List Char} :
    ∀ (fuel pos p e : Nat), (p, e) ∈ matchesFrom re s fuel pos →
      pos ≤ p ∧ p ≤ s.length ∧ reMatch (execFuel re s) re s p some = some e := by
  intro fuel
  induction fuel with
  | zero => intro pos p e h; simp [matchesFrom] at h
  | succ fuel ih =>
    intro pos p e h
    rw [matchesFrom] at h
    split at h
    next pe heq =>
      rcases List.mem_cons.mp h with h1 | h1
      · obtain ⟨p', e'⟩ := pe
        rw [Prod.mk.injEq] at h1
        obtain ⟨rfl, rfl⟩ := h1
        exact execFrom_some heq
      · have hrec := ih pe.2 p e h1
        obtain ⟨p', e'⟩ := pe
        have hfst := execFrom_some heq
        have hb := reMatch_some_bound hfst.2.2
        refine ⟨?_, hrec.2.1, hrec.2.2⟩
        have : pos ≤ p' := hfst.1
        simp only at hrec
        omega
    next => exact absurd h (by simp)

theorem matchesFrom_pairwise {re : RE} {s : List Char} :
    ∀ (fuel pos : Nat),
      (matchesFrom re s fuel pos).Pairwise (fun a b => a.2 ≤ b.1) := by
  intro fuel
  induction fuel with
  | zero => intro pos; simp [matchesFrom]
  | succ fuel ih =>
    intro pos
    rw [matchesFrom]
    split
    next pe heq =>
      refine List.Pairwise.cons ?_ (ih pe.2)
      intro b hb
      exact (matchesFrom_mem fuel pe.2 b.1 b.2 hb).1
    next => simp

/-- Every emitted match lies inside the text, and a consuming pattern emits a
non-empty span. -/
theorem allMatches_mem {re : RE} {s : List Char} {p e : Nat}
    (h : (p, e) ∈ allMatches re s) :
    p ≤ s.length ∧ e ≤ s.length ∧ p + (if consumes re then 1 else 0) ≤ e := by
  have := matchesFrom_mem (s.length + 1) 0 p e h
  exact ⟨this.2.1, reMatch_some_le this.2.1 this.2.2, reMatch_some_bound this.2.2⟩

/-- Within one rule's own match stream, each match starts at or after the
previous match's end. -/
theorem allMatches_pairwise (re : RE) (s : List Char) :
    (allMatches re s).Pairwise (fun a b => a.2 ≤ b.1) :=
  matchesFrom_pairwise (s.length + 1) 0

/-! ## Scan loop lemmas -/

/-- Characterization of one rule's loop: when active it emits the first
`cap - problems` matches and advances the counter accordingly; when inactive
it emits nothing. -/
theorem runRule_eq (cap : Nat) (active : Bool) (msgF : (Nat × Nat) → String) :
    ∀ (ms : List (Nat × Nat)) (problems : Nat), problems ≤ cap →
      runRule cap active msgF ms problems =
        ((if active then (ms.take (cap - problems)).map (fun pe => mkDiag (msgF pe) pe) else []),
         if active then min cap (problems + ms.length) else problems) := by
  intro ms
  induction ms with
  | nil =>
    intro problems hp
    cases active <;> simp [runRule, Nat.min_eq_right hp]
  | cons pe ms ih =>
    intro problems hp
    by_cases hc : problems < cap ∧ active = true
    · rw [runRule, if_pos hc]
      rw [ih (problems + 1) (by omega)]
      obtain ⟨h1, h2⟩ := hc
      subst h2
      simp only [if_true]
      rw [show cap - problems = (cap - (problems + 1)) + 1 by omega]
      rw [List.take_succ_cons, List.map_cons]
      refine Prod.ext rfl ?_
      simp only [List.length_cons]
      omega
    · rw [runRule, if_neg hc]
      by_cases ha : active = true
      · have hpc : ¬ problems < cap := fun hlt => hc ⟨hlt, ha⟩
        have hpe : problems = cap := by omega
        subst hpe ha
        simp
      · have ha' : active = false := by
          cases active
          · rfl
          · exact absurd rfl ha
        subst ha'
        simp

/-- Characterization of the outer loop: appending each rule's capped
contribution is taking a prefix of the concatenated uncapped contributions. -/
theorem scanLoopAux_eq (cap : Nat) :
    ∀ (rules : List ScanRule) (ds : List Diagnostic) (p : Nat), p ≤ cap →
      scanLoopAux cap rules (ds, p) =
        (ds ++ ((rules.map ruleContrib).flatten).take (cap - p),
         min cap (p + ((rules.map ruleContrib).flatten).length)) := by
  intro rules
  induction rules with
  | nil =>
    intro ds p hp
    simp [scanLoopAux, Nat.min_eq_right hp]
  | cons r rs ih =>
    intro ds p hp
    obtain ⟨active, msgF, ms⟩ := r
    rw [scanLoopAux]
    simp only
    rw [runRule_eq cap active msgF ms p hp]
    have hcontrib : ruleContrib (active, msgF, ms) =
        if active then ms.map (fun pe => mkDiag (msgF pe) pe) else [] := rfl
    by_cases ha : active = true
    · subst ha
      simp only [if_true] at hcontrib ⊢
      rw [ih _ (min cap (p + ms.length)) (Nat.min_le_left _ _)]
      rw [List.map_cons, List.flatten_cons, hcontrib]
      rw [List.take_append_eq_append_take, List.map_take, List.append_assoc]
      have hlen : (ms.map (fun pe => mkDiag (msgF pe) pe)).length = ms.length :=
        List.length_map _ _
      refine Prod.ext ?_ ?_
      · simp only [hlen]
        rw [show cap - min cap (p + ms.length) = cap - p - ms.length by omega]
      · simp only [List.length_append, hlen]
        omega
    · have ha' : active = false := by
        cases active
        · rfl
        · exact absurd rfl ha
      subst ha'
      simp only [Bool.false_eq_true, if_false] at hcontrib ⊢
      rw [ih _ p hp]
      rw [List.map_cons, List.flatten_cons, hcontrib]
      simp

/-- The scan is the `cap`-prefix of the concatenation of the per-rule
uncapped contributions, in catalog order. -/
theorem scanLoop_eq (cap : Nat) (rules : List ScanRule) :
    scanLoop cap rules = ((rules.map ruleContrib).flatten).take cap := by
  unfold scanLoop
  rw [scanLoopAux_eq cap rules [] 0 (Nat.zero_le _)]
  simp

/-- The C scan is the cap-prefix of its uncapped result. -/
theorem validate_eq_take (settings : serverSettings) (text : List Char) :
    validateTextDocument settings text =
      (fullScan settings text).take settings.maxNumberOfProblems := by
  unfold validateTextDocument fullScan cBlocks
  exact scanLoop_eq _ _

/-- The python scan is the cap-prefix of its uncapped result. -/
theorem pyValidate_eq_take (settings : pyServerSettings) (text : List Char) :
    pyValidateTextDocument settings text =
      (pyFullScan settings text).take settings.maxNumberOfProblems := by
  unfold pyValidateTextDocument pyFullScan pyBlocks
  exact scanLoop_eq _ _

/-! ## Claim theorems -/

/-- Claim C1: for every document text and configuration snapshot, the scan
emits at most `maxNumberOfProblems` diagnostics in total across all rules
combined; the returned list is exactly the cap-prefix of the uncapped scan, so
once the emitted count reaches the cap no further diagnostic is emitted by any
rule, and the diagnostics collected up to that point are still returned. -/
theorem c1_problem_cap_global (settings : serverSettings) (text : List Char) :
    (validateTextDocument settings text).length ≤ settings.maxNumberOfProblems ∧
    validateTextDocument settings text =
      (fullScan settings text).take settings.maxNumberOfProblems := by
  refine ⟨?_, validate_eq_take settings text⟩
  rw [validate_eq_take]
  simp [List.length_take]

/-- Claim C2: for a fixed document text and toggle block, the diagnostic list
produced with cap `n - 1` is a prefix of the list produced with cap `n`, which
is itself a prefix of the uncapped list under catalog order; in particular
decreasing the cap never increases the number of diagnostics returned. -/
theorem c2_cap_monotone_prefix (n : Nat) (cb : List (String × Bool)) (text : List Char) :
    validateTextDocument ⟨n - 1, cb⟩ text <+: validateTextDocument ⟨n, cb⟩ text ∧
    validateTextDocument ⟨n, cb⟩ text <+: fullScan ⟨n, cb⟩ text ∧
    (validateTextDocument ⟨n - 1, cb⟩ text).length ≤
      (validateTextDocument ⟨n, cb⟩ text).length := by
  have h1 := validate_eq_take ⟨n - 1, cb⟩ text
  have h2 := validate_eq_take ⟨n, cb⟩ text
  have hfull : fullScan ⟨n - 1, cb⟩ text = fullScan ⟨n, cb⟩ text := rfl
  simp only at h1 h2
  refine ⟨?_, ?_, ?_⟩
  · rw [h1, h2, hfull]
    have htt : (fullScan ⟨n, cb⟩ text).take (n - 1) =
        ((fullScan ⟨n, cb⟩ text).take n).take (n - 1) := by
      rw [List.take_take, Nat.min_eq_left (by omega)]
    rw [htt]
    exact List.take_prefix _ _
  · rw [h2]
    exact List.take_prefix _ _
  · rw [h1, h2, hfull]
    simp only [List.length_take]
    omega

/-- The version-gate loop is a fold that ORs the range checks together. -/
theorem computeVulnerable_any (versions : List RE) (cv : List Char) :
    computeVulnerable versions cv = versions.any (fun re => jsSearch re cv) := by
  unfold computeVulnerable
  suffices h : ∀ b : Bool, versions.foldl
      (fun vulnerable re => if jsSearch re cv then true else vulnerable) b =
      (b || versions.any (fun re => jsSearch re cv)) by
    simpa using h false
  induction versions with
  | nil => intro b; simp
  | cons re rs ih =>
    intro b
    rw [List.foldl_cons, List.any_cons, ih]
    by_cases hj : jsSearch re cv <;>
      simp [hj, Bool.or_comm, Bool.or_assoc, Bool.or_left_comm]

/-- Claim C3: a version-gated rule is active iff the declared version string
matches at least one of the rule's version range expressions (logical OR
across the ranges), and a rule with an empty range list never activates; for
the hashlib rule, declared version 3.9.5 with text containing `hashlib` yields
exactly one diagnostic whose message cites CVE-2022-37454, while declared
version 3.12.0 on the same text yields zero diagnostics. -/
theorem c3_version_gating :
    (∀ (versions : List RE) (cv : List Char),
      computeVulnerable versions cv = true ↔ ∃ re ∈ versions, jsSearch re cv = true) ∧
    (∀ cv : List Char, computeVulnerable [] cv = false) ∧
    pyValidateTextDocument ⟨1000, ⟨true, true, "3.9.5".toList⟩⟩ ("import hashlib".toList) =
      [mkDiag cve2022_37454.errorMsg (7, 14)] ∧
    cve2022_37454.errorMsg =
      "This package is vulnerable in your current version of python. Consider updating or avoid the use of hashlib.sha3_224 (" ++
        "CVE-2022-37454" ++ ")" ∧
    pyValidateTextDocument ⟨1000, ⟨true, true, "3.12.0".toList⟩⟩ ("import hashlib".toList) = [] := by
  refine ⟨?_, fun _ => rfl, by decide, by decide, by decide⟩
  intro versions cv
  rw [computeVulnerable_any]
  exact List.any_eq_true

/-- Claim C4 (code evaluation): the anchored pattern correctly ignores
`fgets(buf, 10, stdin)`, but — because the source pattern
`/\bgets\(*.+?\)\b/g` also demands a word boundary after the closing
parenthesis — the document `gets(buf)` produces no diagnostic either, contrary
to the spec's MUST-trigger requirement; a word character directly after the
`)` is required for the rule to fire. -/
theorem c4_gets_word_boundary_eval :
    validateTextDocument defaultSettings ("fgets(buf, 10, stdin)".toList) = [] ∧
    validateTextDocument defaultSettings ("gets(buf)".toList) = [] ∧
    validateTextDocument defaultSettings ("gets(buf)x".toList) = [mkDiag getsMsg (0, 9)] := by
  refine ⟨by decide, by decide, by decide⟩

/-- Claim C5 (code evaluation): on `sprintf(a); sprintf(b); vsprintf(c);` the
scan returns zero diagnostics (the trailing `\b` of each pattern requires a
word character after the closing parenthesis), contradicting the claimed three
diagnostics; on a variant where each call is followed by a word character
the scan does return exactly three diagnostics, the `vsprintf` occurrence
attributed only to the vsprintf rule. -/
theorem c5_sprintf_attribution_eval :
    validateTextDocument defaultSettings ("sprintf(a); sprintf(b); vsprintf(c);".toList) = [] ∧
    validateTextDocument defaultSettings ("sprintf(a)x sprintf(b)y vsprintf(c)z".toList) =
      [mkDiag sprintfMsg (0, 10), mkDiag sprintfMsg (12, 22), mkDiag vsprintfMsg (24, 35)] ∧
    sprintfMsg ≠ vsprintfMsg := by
  refine ⟨by decide, by decide, by decide⟩

/-- Claim C7: the context-gated mktemp rule: the scan result decomposes as the
cap-prefix of error-rule, input-rule, mktemp-rule and CVE-rule contributions
in catalog order; the mktemp contribution is empty whenever the document
contains no `makefile` marker (the context signal, computed by a separate
full-text pass before the rule's own matching); a document with `mktemp(...)`
but no makefile marker yields zero diagnostics, with the marker present the
rule fires. -/
theorem c7_context_gate (settings : pyServerSettings) (text : List Char) :
    (pyValidateTextDocument settings text =
      (ruleContrib (errorScanRule settings text) ++ ruleContrib (inputScanRule settings text) ++
        mktempContribution text ++
        ((cveScanRules settings text).map ruleContrib).flatten).take
        settings.maxNumberOfProblems) ∧
    (makefileExists text = false → mktempContribution text = []) ∧
    pyValidateTextDocument pyDefaultSettings ("x = mktemp(ab);".toList) = [] ∧
    pyValidateTextDocument pyDefaultSettings ("makefile mktemp(ab);".toList) =
      [mkDiag ("mktemp(ab)" ++ mktempMsgSuffix) (9, 19)] := by
  refine ⟨?_, ?_, by decide, by decide⟩
  · rw [pyValidate_eq_take]
    unfold pyFullScan pyBlocks pyRules mktempContribution
    simp [List.append_assoc]
  · intro h
    unfold mktempContribution mktempScanRule ruleContrib
    rw [h]
    simp

/-- Applies C7's context-gate implication at a concrete document with
`mktemp(...)` but no makefile marker. -/
theorem c7_context_gate_witness :
    mktempContribution ("x = mktemp(ab);".toList) = [] :=
  (c7_context_gate pyDefaultSettings ("x = mktemp(ab);".toList)).2.1 (by decide)

/-- A missing toggle field reads as `undefined`, which the loop guard treats
as `false`: extending the block with an explicit `false` entry changes no
lookup. -/
theorem cGet_cons_of_lookup_none (cb : List (String × Bool)) (nm x : String)
    (h : cb.lookup nm = none) : cGet ((nm, false) :: cb) x = cGet cb x := by
  unfold cGet
  rw [List.lookup_cons]
  by_cases hx : x == nm
  · have hx' : x = nm := by simpa using hx
    subst hx'
    rw [h, hx]
    rfl
  · rw [Bool.not_eq_true] at hx
    rw [hx]

set_option maxRecDepth 100000 in
/-- Claim C9: the scan is total (a pure function of text and settings) and
configuration defects degrade only the affected rule: a toggle missing from
the `c` block behaves exactly as an explicit `false` for that rule and leaves
every other rule's behavior unchanged; a declared version string matching none
of a CVE rule's ranges (e.g. a malformed one) makes that rule contribute
nothing, while the remaining rules still fire — concretely, the malformed
version `3.9.zz` silences the hashlib rule yet the email.utils rule still
produces its diagnostic on the same document. -/
theorem c9_defect_isolation :
    (∀ (cap : Nat) (cb : List (String × Bool)) (text : List Char) (nm : String),
      cb.lookup nm = none →
      validateTextDocument ⟨cap, cb⟩ text = validateTextDocument ⟨cap, (nm, false) :: cb⟩ text) ∧
    (∀ (settings : pyServerSettings) (text : List Char) (v : pyVulnerability),
      computeVulnerable v.versions settings.python.version = false →
      ruleContrib (computeVulnerable v.versions settings.python.version,
        fun _ => v.errorMsg,
        pyStream settings.maxNumberOfProblems v.isGlobal v.pattern text) = []) ∧
    pyValidateTextDocument ⟨1000, ⟨true, true, "3.9.zz".toList⟩⟩ ("email.utils hashlib".toList) =
      [mkDiag cve2023_27043.errorMsg (0, 11)] := by
  refine ⟨?_, ?_, by decide⟩
  · intro cap cb text nm h
    have hv : vulnerabilities ⟨cap, (nm, false) :: cb⟩ = vulnerabilities ⟨cap, cb⟩ := by
      unfold vulnerabilities
      simp only [cGet_cons_of_lookup_none cb nm _ h]
    unfold validateTextDocument cScanRules
    rw [hv]
  · intro settings text v h
    unfold ruleContrib
    rw [h]
    simp

/-- Applies C9 at concrete inputs: an empty toggle block (every toggle
missing) scans like an all-false block, and the hashlib rule contributes
nothing under the default (non-matching) declared version. -/
theorem c9_defect_isolation_witness :
    validateTextDocument ⟨5, []⟩ ("gets(a)b".toList) =
      validateTextDocument ⟨5, [("gets", false)]⟩ ("gets(a)b".toList) ∧
    ruleContrib (computeVulnerable cve2022_37454.versions pyDefaultSettings.python.version,
      fun _ => cve2022_37454.errorMsg,
      pyStream pyDefaultSettings.maxNumberOfProblems cve2022_37454.isGlobal
        cve2022_37454.pattern ("import hashlib".toList)) = [] :=
  ⟨c9_defect_isolation.1 5 [] ("gets(a)b".toList) "gets" (by decide),
   c9_defect_isolation.2.1 pyDefaultSettings ("import hashlib".toList) cve2022_37454 (by decide)⟩

/-- Claim C8: the scan output is the cap-prefix of the per-rule blocks in
catalog order; within any one rule's block, spans never overlap (each match
starts at or after the previous match's end in that rule's own stream); but
two different rules may report overlapping spans, as on
`strcpy(gets(a)b)c`, where the strcpy rule reports `[0, 14)` and the gets rule
reports `[7, 14)`. -/
theorem c8_span_overlap (settings : serverSettings) (text : List Char) :
    (validateTextDocument settings text =
      (fullScan settings text).take settings.maxNumberOfProblems) ∧
    (∀ b ∈ cBlocks settings text,
      b.Pairwise (fun d1 d2 => d1.rangeEnd ≤ d2.rangeStart)) ∧
    (validateTextDocument defaultSettings ("strcpy(gets(a)b)c".toList) =
        [mkDiag strcpyMsg (0, 14), mkDiag getsMsg (7, 14)] ∧
      strcpyMsg ≠ getsMsg ∧ (7 : Nat) < 14 ∧ (0 : Nat) < 14) := by
  refine ⟨validate_eq_take settings text, ?_, ⟨by decide, by decide, by decide, by decide⟩⟩
  intro b hb
  rw [cBlocks, List.mem_map] at hb
  obtain ⟨r, hr, rfl⟩ := hb
  rw [cScanRules, List.mem_map] at hr
  obtain ⟨v, hv, rfl⟩ := hr
  have hrc : ruleContrib (v.active, fun _ => v.errorMsg, allMatches v.pattern text) =
      if v.active then (allMatches v.pattern text).map
        (fun pe => mkDiag v.errorMsg pe) else [] := rfl
  rw [hrc]
  by_cases ha : v.active = true
  · rw [if_pos ha]
    refine List.Pairwise.map _ ?_ (allMatches_pairwise v.pattern text)
    intro a b hab
    exact hab
  · rw [if_neg ha]
    simp

/-- Applies C8's within-rule non-overlap at the strcpy rule's block on a
concrete document. -/
theorem c8_span_overlap_witness :
    ([mkDiag strcpyMsg (0, 9)] : List Diagnostic).Pairwise
      (fun d1 d2 => d1.rangeEnd ≤ d2.rangeStart) :=
  (c8_span_overlap defaultSettings ("strcpy(a)b".toList)).2.1
    [mkDiag strcpyMsg (0, 9)] (by decide)

/-- The C rule patterns all consume at least one character per match. -/
theorem vulnerabilities_consume (settings : serverSettings) :
    ∀ v ∈ vulnerabilities settings, consumes v.pattern = true := by
  intro v hv
  unfold vulnerabilities at hv
  simp only [List.mem_cons, List.not_mem_nil, or_false] at hv
  rcases hv with rfl | rfl | rfl | rfl | rfl | rfl | rfl <;> rfl

/-- Claim C10: every diagnostic emitted by the C scan has a well-formed
non-empty span inside the document: its start offset is strictly below its end
offset, which is at most the document length (start offsets are naturals, so
0 ≤ start holds by typing); the span is the matched range `[m.index,
m.index + m[0].length)` by construction of `mkDiag`. -/
theorem c10_span_wellformed (settings : serverSettings) (text : List Char)
    (d : Diagnostic) (hd : d ∈ validateTextDocument settings text) :
    d.rangeStart < d.rangeEnd ∧ d.rangeEnd ≤ text.length := by
  rw [validate_eq_take] at hd
  have hd2 : d ∈ fullScan settings text := List.take_subset _ _ hd
  unfold fullScan at hd2
  rw [List.mem_flatten] at hd2
  obtain ⟨b, hb, hdb⟩ := hd2
  rw [cBlocks, List.mem_map] at hb
  obtain ⟨r, hr, rfl⟩ := hb
  rw [cScanRules, List.mem_map] at hr
  obtain ⟨v, hv, rfl⟩ := hr
  have hrc : ruleContrib (v.active, fun _ => v.errorMsg, allMatches v.pattern text) =
      if v.active then (allMatches v.pattern text).map
        (fun pe => mkDiag v.errorMsg pe) else [] := rfl
  rw [hrc] at hdb
  by_cases ha : v.active = true
  · rw [if_pos ha, List.mem_map] at hdb
    obtain ⟨pe, hpe, rfl⟩ := hdb
    obtain ⟨p, e⟩ := pe
    have hm := allMatches_mem hpe
    rw [vulnerabilities_consume settings v hv] at hm
    have h3 : p + 1 ≤ e := by simpa using hm.2.2
    refine ⟨?_, ?_⟩
    · show p < e
      omega
    · show e ≤ text.length
      exact hm.2.1
  · rw [if_neg ha] at hdb
    exact absurd hdb (by simp)

/-- Applies C10 to a concrete diagnostic of a concrete scan. -/
theorem c10_span_wellformed_witness :
    (mkDiag strcpyMsg (0, 9)).rangeStart < (mkDiag strcpyMsg (0, 9)).rangeEnd ∧
    (mkDiag strcpyMsg (0, 9)).rangeEnd ≤ ("strcpy(a)b".toList).length :=
  c10_span_wellformed defaultSettings ("strcpy(a)b".toList) (mkDiag strcpyMsg (0, 9))
    (by decide)

/-- The toggle names of the seven C rules, in catalog order. -/
def cToggleNames : List String :=
  ["strcpy", "gets", "stpcpy", "strcat", "strcmp", "sprintf", "vsprintf"]

/-- Prepending an explicit `false` entry forces that toggle off. -/
theorem cGet_cons_self (cb : List (String × Bool)) (nm : String) :
    cGet ((nm, false) :: cb) nm = false := by
  unfold cGet
  rw [List.lookup_cons]
  simp

/-- Prepending an entry for a different name changes no other lookup. -/
theorem cGet_cons_ne (cb : List (String × Bool)) (nm x : String)
    (h : (x == nm) = false) : cGet ((nm, false) :: cb) x = cGet cb x := by
  unfold cGet
  rw [List.lookup_cons, h]

/-- An inactive rule contributes nothing. -/
theorem ruleContrib_false (msgF : (Nat × Nat) → String) (ms : List (Nat × Nat)) :
    ruleContrib (false, msgF, ms) = [] := rfl

/-- Emptying one block of a block list only shrinks the flattening. -/
theorem flatten_set_nil_sublist {α : Type} :
    ∀ (l : List (List α)) (i : Nat), ((l.set i ([] : List α)).flatten).Sublist l.flatten := by
  intro l
  induction l with
  | nil => intro i; simp
  | cons x xs ih =>
    intro i
    cases i with
    | zero =>
      rw [List.set_cons_zero, List.flatten_cons, List.flatten_cons]
      simp only [List.nil_append]
      exact List.sublist_append_right x xs.flatten
    | succ n =>
      rw [List.set_cons_succ, List.flatten_cons, List.flatten_cons]
      exact List.Sublist.append_left (ih n) x

set_option maxRecDepth 100000 in
/-- Claim C6 (counterexample): with the cap binding (cap 1), turning the
strcpy toggle off changes the gets rule's contribution — disabling one rule
frees the budget and lets another rule emit — so toggling is not a pure
removal of the toggled rule's diagnostics. -/
theorem c6_toggle_independence_counterexample :
    (validateTextDocument ⟨1, ("strcpy", false) :: defaultSettings.c⟩
        ("strcpy(a)b gets(c)d".toList)).filter (fun d => d.message == getsMsg) ≠
      (validateTextDocument ⟨1, defaultSettings.c⟩
        ("strcpy(a)b gets(c)d".toList)).filter (fun d => d.message == getsMsg) := by
  decide

/-- Claim C6 (amended): provided the uncapped diagnostic count does not exceed
the cap, setting one rule's toggle to false changes the output exactly by
emptying that rule's block: the scan with the toggle forced off equals the
flattening of the original per-rule blocks with the toggled rule's block
replaced by `[]`, every other rule's contribution unchanged. -/
theorem c6_toggle_independence_amended (i : Nat) (hi : i < 7) (cap : Nat)
    (cb : List (String × Bool)) (text : List Char)
    (hroom : (fullScan ⟨cap, cb⟩ text).length ≤ cap) :
    validateTextDocument ⟨cap, (cToggleNames.getD i "", false) :: cb⟩ text =
      ((cBlocks ⟨cap, cb⟩ text).set i []).flatten ∧
    validateTextDocument ⟨cap, cb⟩ text = (cBlocks ⟨cap, cb⟩ text).flatten := by
  have hon : validateTextDocument ⟨cap, cb⟩ text = (cBlocks ⟨cap, cb⟩ text).flatten := by
    rw [validate_eq_take]
    exact List.take_of_length_le hroom
  refine ⟨?_, hon⟩
  have hblocks : cBlocks ⟨cap, (cToggleNames.getD i "", false) :: cb⟩ text =
      (cBlocks ⟨cap, cb⟩ text).set i [] := by
    interval_cases i <;>
      simp [cToggleNames, cBlocks, cScanRules, vulnerabilities,
        cGet_cons_self, cGet_cons_ne, ruleContrib_false]
  have hfoff : fullScan ⟨cap, (cToggleNames.getD i "", false) :: cb⟩ text =
      ((cBlocks ⟨cap, cb⟩ text).set i []).flatten := by
    unfold fullScan
    rw [hblocks]
  have hlen : (fullScan ⟨cap, (cToggleNames.getD i "", false) :: cb⟩ text).length ≤ cap := by
    rw [hfoff]
    have hsub := (flatten_set_nil_sublist (cBlocks ⟨cap, cb⟩ text) i).length_le
    have hro : ((cBlocks ⟨cap, cb⟩ text).flatten).length ≤ cap := hroom
    omega
  rw [validate_eq_take, List.take_of_length_le hlen, hfoff]

set_option maxRecDepth 100000 in
/-- Applies the amended C6 at a concrete document with ample cap headroom:
turning strcpy off empties exactly the strcpy block. -/
theorem c6_toggle_independence_witness :
    validateTextDocument ⟨1000, ("strcpy", false) :: defaultSettings.c⟩
        ("strcpy(a)b gets(c)d".toList) =
      ((cBlocks ⟨1000, defaultSettings.c⟩ ("strcpy(a)b gets(c)d".toList)).set 0 []).flatten :=
  (c6_toggle_independence_amended 0 (by omega) 1000 defaultSettings.c
    ("strcpy(a)b gets(c)d".toList) (by decide)).1
